import Mathlib

/-!
Verification of `mp3s-to-spotify-playlist.py` (mp3-to-spotify-playlist).

Shallow embedding of the script.  The external world is made explicit:

* the filesystem is a partial map from file names to file contents
  (`FS`), with `os.path.isfile` = membership, writing = update,
  `os.remove` = deletion;
* the Spotify client `sp` is an `Oracle`: each remote operation either
  returns a value (`some`) or fails (`none`, modelling a fatal remote
  error that in Python propagates as an exception);
* every remote request is logged in a `RemoteCall` trace, so that
  "performs exactly one search", "no mutating call in a dry run",
  batch counts, etc. are statements about the trace;
* `Path(music_folder).rglob` is the recursive enumeration of the
  folder; the folder's entries are a parameter (`folderFiles`, file
  names in filesystem order) and the glob pattern `*.[mp3 wav]*`
  is embedded as an fnmatch-style matcher (`globMatch`).

Fallible code returns `Except Unit`; `Except.error` is an uncaught
Python exception, which aborts `main` at the point it occurs.
-/

namespace Mp3

/-- A remote request made through the Spotify client, as recorded in the
run's trace: `sp.search(q, type=ty, limit=n)`, `sp.current_user()`,
`sp.user_playlist_create(user_id, name)`, and
`sp.playlist_add_items(playlist_id, items)`. -/
inductive RemoteCall where
  | search (query : String) (ty : String) (limit : Nat)
  | currentUser
  | playlistCreate (user_id : String) (playlist_name : String)
  | addItems (playlist_id : String) (items : List String)
deriving DecidableEq

/-- The remote service the script talks to.  `searchResults q` is the
full ranked result list the catalog has for query `q` (`none` = the
request fails); the server truncates it to the requested `limit`.
`currentUser`, `createPlaylist` and `addItems` similarly return `none`
exactly when that remote call fails. -/
structure Oracle where
  searchResults : String → Option (List String)
  currentUser : Option String
  createPlaylist : String → String → Option String
  addItems : String → List String → Option Unit

/-- The filesystem: file name ↦ contents of the file, `none` when no
such file exists. -/
abbrev FS := String → Option String

/-- `open(name, "w")` followed by writing `content`: overwrites any
existing file. -/
def fsWrite (fs : FS) (name content : String) : FS :=
  fun f => if f = name then some content else fs f

/-- `os.remove(name)`. -/
def fsRemove (fs : FS) (name : String) : FS :=
  fun f => if f = name then none else fs f

/-- `playlist_tracks_file`: the tracks cache file name derived from the
playlist name. -/
def playlist_tracks_file (playlist_name : String) : String :=
  playlist_name ++ "-tracks_to_add.txt"

/-- `playlist_unmatched_file`: the unmatched cache file name derived
from the playlist name. -/
def playlist_unmatched_file (playlist_name : String) : String :=
  playlist_name ++ "-unmatched_tracks.txt"

/-- The characters Python's `str.splitlines` treats as line
boundaries. -/
def lineBoundaryChars : List Char :=
  ['\n', '\r', '\x0b', '\x0c', '\x1c', '\x1d', '\x1e', '\x85', '\u2028', '\u2029']

/-- Whether `c` is a line boundary for `str.splitlines`. -/
def isLineBoundary (c : Char) : Bool :=
  lineBoundaryChars.contains c

/-- After a line-boundary character `c`, the characters the rest of the
scan continues with: `"\r\n"` counts as a single boundary. -/
def dropCRLF (c : Char) (rest : List Char) : List Char :=
  if c = '\r' then
    match rest with
    | '\n' :: r => r
    | _ => rest
  else rest

theorem dropCRLF_length_le (c : Char) (rest : List Char) :
    (dropCRLF c rest).length ≤ rest.length := by
  unfold dropCRLF
  split
  · split
    · simp [List.length_cons]
    · exact Nat.le_refl _
  · exact Nat.le_refl _

/-- Scanner for `str.splitlines`: `acc` holds the (reversed) characters
of the current line. -/
def splitlinesAux : List Char → List Char → List String
  | acc, [] => if acc.isEmpty then [] else [String.mk acc.reverse]
  | acc, c :: rest =>
    if isLineBoundary c then
      String.mk acc.reverse :: splitlinesAux [] (dropCRLF c rest)
    else
      splitlinesAux (c :: acc) rest
termination_by _ cs => cs.length
decreasing_by
  · have := dropCRLF_length_le c rest
    simp
    omega
  · simp

/-- Python's `str.splitlines()`. -/
def splitlines (s : String) : List String :=
  splitlinesAux [] s.data

/-- `file[:-4]`: the file name with its last 4 characters removed
(Python slicing; for strings of length ≤ 4 the result is empty). -/
def stripExt (s : String) : String :=
  String.mk (s.data.take (s.data.length - 4))

/-- `search_track(sp, track_name)`: one call to
`sp.search(q=track_name, type="track", limit=1)`; the id of the first
item when the result set is non-empty, else `None`.  The pair's second
component is the trace of remote requests made. -/
def search_track (sp : Oracle) (track_name : String) :
    Except Unit (Option String) × List RemoteCall :=
  match sp.searchResults track_name with
  | none => (Except.error (), [RemoteCall.search track_name "track" 1])
  | some results =>
    match results.take 1 with
    | [] => (Except.ok none, [RemoteCall.search track_name "track" 1])
    | id :: _ => (Except.ok (some id), [RemoteCall.search track_name "track" 1])

/-- A token of an fnmatch-style glob pattern: `*`, a literal character,
or a character class `[...]`. -/
inductive GlobTok where
  | star
  | lit (c : Char)
  | cls (cs : List Char)

/-- `*` matching: try the rest of the pattern (`next`) on every suffix
of the name. -/
def starLoop (next : List Char → Bool) : List Char → Bool
  | [] => next []
  | c :: cs => next (c :: cs) || starLoop next cs

/-- fnmatch-style matching of a tokenized glob pattern against a file
name (as used by `pathlib`'s glob on a single path component). -/
def globMatch : List GlobTok → List Char → Bool
  | [], cs => cs.isEmpty
  | GlobTok.star :: ps, cs => starLoop (globMatch ps) cs
  | GlobTok.lit p :: ps, cs =>
    match cs with
    | [] => false
    | c :: cs2 => (p == c) && globMatch ps cs2
  | GlobTok.cls set :: ps, cs =>
    match cs with
    | [] => false
    | c :: cs2 => set.contains c && globMatch ps cs2

/-- `music_extensions = "mp3 wav"`. -/
def music_extensions : String := "mp3 wav"

/-- The glob pattern `*.[{music_extensions}]*`, i.e. `*.[mp3 wav]*`,
tokenized: anything, a dot, one character of the class
`m p 3 ␣ w a v`, anything. -/
def musicPattern : List GlobTok :=
  [GlobTok.star, GlobTok.lit '.', GlobTok.cls music_extensions.data, GlobTok.star]

/-- A folder entry is yielded by `rglob` exactly when its name matches
the music pattern. -/
def isMusicFile (name : String) : Bool :=
  globMatch musicPattern name.data

/-- The scan/search loop of `create_tracks_list`: for each file, search
for the name with the extension stripped; append the id to the matched
list on success, the file name to the unmatched list otherwise.  A
failing search aborts the loop (uncaught exception); the trace contains
every request made up to that point. -/
def buildLists (sp : Oracle) :
    List String → Except Unit (List String × List String) × List RemoteCall
  | [] => (Except.ok ([], []), [])
  | file :: rest =>
    match search_track sp (stripExt file) with
    | (Except.error e, calls) => (Except.error e, calls)
    | (Except.ok track_id, calls) =>
      match buildLists sp rest with
      | (Except.error e, restCalls) => (Except.error e, calls ++ restCalls)
      | (Except.ok (tracks_to_add, unmatched_tracks), restCalls) =>
        match track_id with
        | some id =>
            (Except.ok (id :: tracks_to_add, unmatched_tracks), calls ++ restCalls)
        | none =>
            (Except.ok (tracks_to_add, file :: unmatched_tracks), calls ++ restCalls)

/-- `read_tracks_from_cache`: read both cache files as newline-delimited
records (only ever called when both files exist). -/
def read_tracks_from_cache (fs : FS) (tracks_file unmatched_file : String) :
    List String × List String :=
  (splitlines ((fs tracks_file).getD ""), splitlines ((fs unmatched_file).getD ""))

/-- `create_tracks_list`: if both cache files exist, return their
contents; otherwise scan the folder (the `rglob` enumeration filtered by
the music pattern) and search each file. -/
def create_tracks_list (sp : Oracle) (fs : FS) (folderFiles : List String)
    (tracks_file unmatched_file : String) :
    Except Unit (List String × List String) × List RemoteCall :=
  let tracks_file_found := (fs tracks_file).isSome
  let unmatched_file_found := (fs unmatched_file).isSome
  if tracks_file_found && unmatched_file_found then
    (Except.ok (read_tracks_from_cache fs tracks_file unmatched_file), [])
  else
    buildLists sp (folderFiles.filter (fun f => isMusicFile f))

/-- `write_list_to_file`: the file contents produced by writing each
item on its own line (`f.write(f"{track}\n")` in a loop). -/
def write_list_to_file : List String → String
  | [] => ""
  | track :: rest => track ++ "\n" ++ write_list_to_file rest

/-- The batch loop `for i in range(0, ceil(len(tracks_to_add)/100))`:
`r` iterations remain, `i` is the current index; each iteration slices
`tracks_to_add[i*100 : i*100+100]` and, unless this is a dry run, sends
it with `sp.playlist_add_items`; a failing call aborts the loop. -/
def addBatchLoop (sp : Oracle) (playlist_id : String) (tracks_to_add : List String)
    (dry_run : Bool) : Nat → Nat → Bool × List RemoteCall
  | _, 0 => (true, [])
  | i, r + 1 =>
    let tracks_batch := (tracks_to_add.drop (i * 100)).take 100
    if dry_run then
      addBatchLoop sp playlist_id tracks_to_add dry_run (i + 1) r
    else
      match sp.addItems playlist_id tracks_batch with
      | none => (false, [RemoteCall.addItems playlist_id tracks_batch])
      | some _ =>
        let rec2 := addBatchLoop sp playlist_id tracks_to_add dry_run (i + 1) r
        (rec2.1, RemoteCall.addItems playlist_id tracks_batch :: rec2.2)

/-- The whole batch-adding phase of `main`: `ceil(len(tracks)/100)`
iterations starting at index 0 (`(L + 99) / 100` is `math.ceil(L/100)`
in natural numbers). -/
def addBatches (sp : Oracle) (playlist_id : String) (tracks_to_add : List String)
    (dry_run : Bool) : Bool × List RemoteCall :=
  addBatchLoop sp playlist_id tracks_to_add dry_run 0
    ((tracks_to_add.length + 99) / 100)

/-- The two `write_list_to_file` calls of `main`: the tracks cache file,
then the unmatched cache file. -/
def cacheWrites (fs : FS) (tracks_file unmatched_file : String)
    (tracks_to_add unmatched_tracks : List String) : FS :=
  fsWrite (fsWrite fs tracks_file (write_list_to_file tracks_to_add))
    unmatched_file (write_list_to_file unmatched_tracks)

/-- `main`, after credential loading: look up the current user, build
the track lists, write both cache files, create the playlist and add
the batches unless this is a dry run, and delete both cache files on a
successful non-dry run.  Returns (run completed without error, final
filesystem, trace of remote requests). -/
def main (sp : Oracle) (fs0 : FS) (folderFiles : List String)
    (playlist_name : String) (dry_run : Bool) :
    Bool × FS × List RemoteCall :=
  match sp.currentUser with
  | none => (false, fs0, [RemoteCall.currentUser])
  | some user =>
    match create_tracks_list sp fs0 folderFiles (playlist_tracks_file playlist_name)
        (playlist_unmatched_file playlist_name) with
    | (Except.error _, calls) => (false, fs0, RemoteCall.currentUser :: calls)
    | (Except.ok (tracks_to_add, unmatched_tracks), calls) =>
      let fs2 := cacheWrites fs0 (playlist_tracks_file playlist_name)
        (playlist_unmatched_file playlist_name) tracks_to_add unmatched_tracks
      if dry_run then
        let r := addBatches sp "" tracks_to_add true
        (r.1, fs2, RemoteCall.currentUser :: calls ++ r.2)
      else
        match sp.createPlaylist user playlist_name with
        | none =>
            (false, fs2,
              RemoteCall.currentUser :: calls ++ [RemoteCall.playlistCreate user playlist_name])
        | some playlist_id =>
          let r := addBatches sp playlist_id tracks_to_add false
          if r.1 then
            (true, fsRemove (fsRemove fs2 (playlist_tracks_file playlist_name))
                (playlist_unmatched_file playlist_name),
              RemoteCall.currentUser :: calls ++
                RemoteCall.playlistCreate user playlist_name :: r.2)
          else
            (false, fs2,
              RemoteCall.currentUser :: calls ++
                RemoteCall.playlistCreate user playlist_name :: r.2)

/-- The items of an `addItems` call (used to speak about batch sizes and
contents); other calls carry no items. -/
def batchOf : RemoteCall → List String
  | RemoteCall.addItems _ items => items
  | _ => []

/-- Whether a remote call mutates remote state (playlist creation or
track addition); searches and user lookup are read-only. -/
def isMutation : RemoteCall → Bool
  | RemoteCall.playlistCreate _ _ => true
  | RemoteCall.addItems _ _ => true
  | _ => false

/-! ### Concrete instances used by the witnesses -/

/-- The empty filesystem. -/
def emptyFS : FS := fun _ => none

/-- A healthy remote service knowing the two songs of the spec's
running example. -/
def oracleW : Oracle where
  searchResults := fun q =>
    if q = "Song A" then some ["idA"]
    else if q = "Song B" then some ["idB"]
    else some []
  currentUser := some "user1"
  createPlaylist := fun _ _ => some "pl1"
  addItems := fun _ _ => some ()

/-- A remote service on which every call fails. -/
def oracleFail : Oracle where
  searchResults := fun _ => none
  currentUser := none
  createPlaylist := fun _ _ => none
  addItems := fun _ _ => none

/-- A filesystem holding both cache files of playlist `p`. -/
def fsCacheW : FS := fun f =>
  if f = "p-tracks_to_add.txt" then some "id1\nid2\n"
  else if f = "p-unmatched_tracks.txt" then some "x.mp3\n"
  else none

/-- A filesystem holding only the tracks cache file of playlist `p`. -/
def fsLoneW : FS := fun f =>
  if f = "p-tracks_to_add.txt" then some "stale-id\n" else none

/-- The folder of the spec's running example, plus one non-audio file. -/
def filesW : List String :=
  ["Song A.mp3", "Song B.wav", "Unknown Noise.mp3", "notes.txt"]

/-! ### Basic lemmas -/

theorem mk_data (s : String) : String.mk s.data = s := by
  cases s
  rfl

theorem search_track_eq (sp : Oracle) (q : String) (l : List String)
    (h : sp.searchResults q = some l) :
    search_track sp q = (Except.ok l.head?, [RemoteCall.search q "track" 1]) := by
  unfold search_track
  rw [h]
  cases l <;> rfl

theorem search_track_snd (sp : Oracle) (q : String) :
    (search_track sp q).2 = [RemoteCall.search q "track" 1] := by
  unfold search_track
  cases h : sp.searchResults q with
  | none => rfl
  | some l =>
    cases h2 : l.take 1 <;> simp [h2]

/-- C3: for every query, `search_track` performs exactly one search
request, with `type="track"` and `limit=1`, and returns the identifier
of the first result when the (truncated) result set is non-empty,
otherwise `None` — an ordinary value, not an error. -/
theorem search_track_single_request (sp : Oracle) (q : String) (l : List String)
    (h : sp.searchResults q = some l) :
    (search_track sp q).2 = [RemoteCall.search q "track" 1] ∧
    (search_track sp q).1 = Except.ok l.head? := by
  rw [search_track_eq sp q l h]
  exact ⟨rfl, rfl⟩

theorem search_track_single_request_witness :
    (search_track oracleW "Song A").2 = [RemoteCall.search "Song A" "track" 1] ∧
    (search_track oracleW "Song A").1 = Except.ok (["idA"].head?) :=
  search_track_single_request oracleW "Song A" ["idA"] (by decide)

/-- C4: when both cache files exist, `create_tracks_list` returns their
newline-delimited contents as `(matched, unmatched)` with an empty
remote trace (no Matcher call), and the result does not depend on the
remote service or on the folder contents — so two runs over identical
cache files agree. -/
theorem create_tracks_list_cache_path (sp sp2 : Oracle) (fs : FS)
    (files files2 : List String) (tf uf ct cu : String)
    (ht : fs tf = some ct) (hu : fs uf = some cu) :
    create_tracks_list sp fs files tf uf
        = (Except.ok (splitlines ct, splitlines cu), []) ∧
    create_tracks_list sp fs files tf uf
        = create_tracks_list sp2 fs files2 tf uf := by
  unfold create_tracks_list read_tracks_from_cache
  rw [ht, hu]
  exact ⟨rfl, rfl⟩

theorem create_tracks_list_cache_path_witness :
    create_tracks_list oracleW fsCacheW filesW
        "p-tracks_to_add.txt" "p-unmatched_tracks.txt"
      = (Except.ok (splitlines "id1\nid2\n", splitlines "x.mp3\n"), []) ∧
    create_tracks_list oracleW fsCacheW filesW
        "p-tracks_to_add.txt" "p-unmatched_tracks.txt"
      = create_tracks_list oracleFail fsCacheW []
          "p-tracks_to_add.txt" "p-unmatched_tracks.txt" :=
  create_tracks_list_cache_path oracleW oracleFail fsCacheW filesW []
    "p-tracks_to_add.txt" "p-unmatched_tracks.txt" "id1\nid2\n" "x.mp3\n"
    (by decide) (by decide)

/-! ### The splitlines / write round trip (C9) -/

theorem dropCRLF_newline (t : List Char) : dropCRLF '\n' t = t := by
  unfold dropCRLF
  split
  · simp_all
  · rfl

theorem splitlinesAux_append (cs : List Char) (tail : List Char)
    (h : ∀ c ∈ cs, isLineBoundary c = false) :
    ∀ acc, splitlinesAux acc (cs ++ '\n' :: tail)
      = String.mk (acc.reverse ++ cs) :: splitlinesAux [] tail := by
  induction cs with
  | nil =>
    intro acc
    simp only [List.nil_append, List.append_nil]
    rw [splitlinesAux]
    simp [isLineBoundary, lineBoundaryChars, dropCRLF_newline]
  | cons c cs ih =>
    intro acc
    have hc : isLineBoundary c = false := h c (by simp)
    have hcs : ∀ x ∈ cs, isLineBoundary x = false :=
      fun x hx => h x (List.mem_cons_of_mem _ hx)
    simp only [List.cons_append]
    rw [splitlinesAux]
    rw [hc]
    simp only [Bool.false_eq_true, if_false]
    rw [ih hcs (c :: acc)]
    simp [List.append_assoc]

theorem splitlines_write (l : List String)
    (h : ∀ s ∈ l, ∀ c ∈ s.data, isLineBoundary c = false) :
    splitlines (write_list_to_file l) = l := by
  induction l with
  | nil =>
    show splitlinesAux [] ("" : String).data = []
    rw [show ("" : String).data = [] from rfl, splitlinesAux]
    rfl
  | cons i rest ih =>
    have hi : ∀ c ∈ i.data, isLineBoundary c = false := h i (by simp)
    have hrest : ∀ s ∈ rest, ∀ c ∈ s.data, isLineBoundary c = false :=
      fun s hs => h s (List.mem_cons_of_mem _ hs)
    unfold write_list_to_file splitlines
    have hdata : (i ++ "\n" ++ write_list_to_file rest).data
        = i.data ++ '\n' :: (write_list_to_file rest).data := by
      simp [String.data_append]
    rw [hdata, splitlinesAux_append i.data _ hi []]
    simp only [List.reverse_nil, List.nil_append, mk_data]
    show i :: splitlines (write_list_to_file rest) = i :: rest
    exact congrArg _ (ih hrest)

/-- C9: writing a list of line-boundary-free strings with
`write_list_to_file` (one item per line, overwriting whatever the two
file names held) and reading it back with `read_tracks_from_cache`
returns exactly the original lists — order kept, duplicates kept,
contents uninspected. -/
theorem write_then_read_roundtrip (fs : FS) (tf uf : String)
    (ts us : List String) (hne : tf ≠ uf)
    (hts : ∀ s ∈ ts, ∀ c ∈ s.data, isLineBoundary c = false)
    (hus : ∀ s ∈ us, ∀ c ∈ s.data, isLineBoundary c = false) :
    read_tracks_from_cache
        (fsWrite (fsWrite fs tf (write_list_to_file ts)) uf (write_list_to_file us))
        tf uf
      = (ts, us) := by
  have h1 : (fsWrite (fsWrite fs tf (write_list_to_file ts)) uf (write_list_to_file us)) tf
      = some (write_list_to_file ts) := by simp [fsWrite, hne]
  have h2 : (fsWrite (fsWrite fs tf (write_list_to_file ts)) uf (write_list_to_file us)) uf
      = some (write_list_to_file us) := by simp [fsWrite]
  unfold read_tracks_from_cache
  rw [h1, h2, Option.getD_some, Option.getD_some,
    splitlines_write ts hts, splitlines_write us hus]

theorem write_then_read_roundtrip_witness :
    read_tracks_from_cache
        (fsWrite (fsWrite emptyFS "p-tracks_to_add.txt" (write_list_to_file ["idA", "idB", "idA"]))
          "p-unmatched_tracks.txt" (write_list_to_file ["Unknown Noise.mp3"]))
        "p-tracks_to_add.txt" "p-unmatched_tracks.txt"
      = (["idA", "idB", "idA"], ["Unknown Noise.mp3"]) :=
  write_then_read_roundtrip emptyFS "p-tracks_to_add.txt" "p-unmatched_tracks.txt"
    ["idA", "idB", "idA"] ["Unknown Noise.mp3"]
    (by decide) (by decide) (by decide)

/-! ### The fresh scan/search path (C2, C7) -/

theorem buildLists_spec (sp : Oracle) (files : List String)
    (h : ∀ f ∈ files, (sp.searchResults (stripExt f)).isSome = true) :
    ∃ m u, buildLists sp files
        = (Except.ok (m, u),
            files.map (fun f => RemoteCall.search (stripExt f) "track" 1)) ∧
      m.length + u.length = files.length := by
  induction files with
  | nil => exact ⟨[], [], rfl, rfl⟩
  | cons f rest ih =>
    have hf := h f (by simp)
    obtain ⟨l, hl⟩ := Option.isSome_iff_exists.mp hf
    obtain ⟨m, u, heq, hlen⟩ := ih (fun g hg => h g (List.mem_cons_of_mem _ hg))
    cases hh : l.head? with
    | some id =>
      refine ⟨id :: m, u, ?_, ?_⟩
      · simp only [buildLists, search_track_eq sp (stripExt f) l hl, hh, heq]
        simp
      · simp only [List.length_cons]
        omega
    | none =>
      refine ⟨m, f :: u, ?_, ?_⟩
      · simp only [buildLists, search_track_eq sp (stripExt f) l hl, hh, heq]
        simp
      · simp only [List.length_cons]
        omega

/-- C2: on a fresh run (not both cache files present) over a folder with
N eligible audio files, when every search answers, the builder returns
matched and unmatched lists whose lengths sum to N. -/
theorem create_tracks_list_partition (sp : Oracle) (fs : FS)
    (files : List String) (tf uf : String)
    (hfresh : ((fs tf).isSome && (fs uf).isSome) = false)
    (hsearch : ∀ f ∈ files.filter (fun f => isMusicFile f),
      (sp.searchResults (stripExt f)).isSome = true) :
    ((create_tracks_list sp fs files tf uf).1.toOption.map
        (fun p => p.1.length + p.2.length))
      = some ((files.filter (fun f => isMusicFile f)).length) := by
  obtain ⟨m, u, heq, hlen⟩ := buildLists_spec sp _ hsearch
  simp only [create_tracks_list, hfresh, Bool.false_eq_true, if_false, heq,
    Except.toOption, Option.map_some]
  exact congrArg some hlen

theorem create_tracks_list_partition_witness :
    ((create_tracks_list oracleW emptyFS filesW
          "p-tracks_to_add.txt" "p-unmatched_tracks.txt").1.toOption.map
        (fun p => p.1.length + p.2.length))
      = some ((filesW.filter (fun f => isMusicFile f)).length) :=
  create_tracks_list_partition oracleW emptyFS filesW
    "p-tracks_to_add.txt" "p-unmatched_tracks.txt" (by decide) (by decide)

/-- C7: on a fresh run the queries sent to the remote matcher are
exactly the eligible file names with their last 4 characters removed,
in scan order; the truncation is purely positional — the stripped part
is whatever the last `min 4 length` characters are, and a name of at
most 4 characters yields the empty query. -/
theorem search_queries_positional_truncation (sp : Oracle) (fs : FS)
    (files : List String) (tf uf : String) (s : String)
    (hfresh : ((fs tf).isSome && (fs uf).isSome) = false)
    (hsearch : ∀ f ∈ files.filter (fun f => isMusicFile f),
      (sp.searchResults (stripExt f)).isSome = true) :
    (create_tracks_list sp fs files tf uf).2
        = (files.filter (fun f => isMusicFile f)).map
            (fun f => RemoteCall.search (stripExt f) "track" 1) ∧
    (s.data.length ≤ 4 → stripExt s = "") ∧
    stripExt s ++ String.mk (s.data.drop (s.data.length - 4)) = s := by
  obtain ⟨m, u, heq, _⟩ := buildLists_spec sp _ hsearch
  refine ⟨?_, ?_, ?_⟩
  · simp [create_tracks_list, hfresh, heq]
  · intro hs
    unfold stripExt
    rw [show s.data.length - 4 = 0 by omega]
    rfl
  · calc stripExt s ++ String.mk (s.data.drop (s.data.length - 4))
        = String.mk (s.data.take (s.data.length - 4)
            ++ s.data.drop (s.data.length - 4)) := rfl
      _ = String.mk s.data := by rw [List.take_append_drop]
      _ = s := mk_data s

theorem search_queries_positional_truncation_witness :
    (create_tracks_list oracleW emptyFS filesW
          "p-tracks_to_add.txt" "p-unmatched_tracks.txt").2
        = (filesW.filter (fun f => isMusicFile f)).map
            (fun f => RemoteCall.search (stripExt f) "track" 1) ∧
    stripExt "a.b" = "" ∧
    stripExt "a.b" ++ String.mk (("a.b" : String).data.drop
        (("a.b" : String).data.length - 4)) = "a.b" :=
  ⟨(search_queries_positional_truncation oracleW emptyFS filesW
      "p-tracks_to_add.txt" "p-unmatched_tracks.txt" "a.b"
      (by decide) (by decide)).1,
   (search_queries_positional_truncation oracleW emptyFS filesW
      "p-tracks_to_add.txt" "p-unmatched_tracks.txt" "a.b"
      (by decide) (by decide)).2.1 (by decide),
   (search_queries_positional_truncation oracleW emptyFS filesW
      "p-tracks_to_add.txt" "p-unmatched_tracks.txt" "a.b"
      (by decide) (by decide)).2.2⟩

/-! ### The extension filter (C8) -/

theorem globMatch_star (cs : List Char) : globMatch [GlobTok.star] cs = true := by
  induction cs with
  | nil => rfl
  | cons c t ih =>
    have ih2 : starLoop (globMatch []) t = true := ih
    show ((c :: t).isEmpty || starLoop (globMatch []) t) = true
    rw [ih2]
    simp

theorem globMatch_tail (S : List Char) (cs : List Char) :
    globMatch [GlobTok.lit '.', GlobTok.cls S, GlobTok.star] cs = true ↔
      ∃ c b, cs = '.' :: c :: b ∧ c ∈ S := by
  match cs with
  | [] =>
    show false = true ↔ ∃ c b, ([] : List Char) = '.' :: c :: b ∧ c ∈ S
    simp
  | [x] =>
    show (('.' == x) && false) = true ↔ ∃ c b, [x] = '.' :: c :: b ∧ c ∈ S
    simp
  | x :: y :: r =>
    show (('.' == x) && (S.contains y && globMatch [GlobTok.star] r)) = true ↔
      ∃ c b, x :: y :: r = '.' :: c :: b ∧ c ∈ S
    rw [globMatch_star r]
    simp only [Bool.and_true, Bool.and_eq_true, beq_iff_eq,
      List.contains_iff_exists_mem_beq]
    constructor
    · rintro ⟨hx, c, hc, hbeq⟩
      have hcy : y = c := by simpa using hbeq
      refine ⟨y, r, ?_, ?_⟩
      · rw [← hx]
      · rw [hcy]
        exact hc
    · rintro ⟨c, b, hcb, hc⟩
      obtain ⟨h1, h2, h3⟩ : x = '.' ∧ y = c ∧ r = b := by
        simpa using hcb
      refine ⟨h1.symm, c, hc, ?_⟩
      simp [h2]

theorem globMatch_star_cons (T : List GlobTok) (cs : List Char) :
    globMatch (GlobTok.star :: T) cs = true ↔
      ∃ a b, cs = a ++ b ∧ globMatch T b = true := by
  induction cs with
  | nil =>
    constructor
    · intro h
      exact ⟨[], [], rfl, by simpa [globMatch, starLoop] using h⟩
    · rintro ⟨a, b, hab, hb⟩
      obtain ⟨ha, hb2⟩ := List.append_eq_nil.mp hab.symm
      subst ha; subst hb2
      simpa [globMatch, starLoop] using hb
  | cons x cs ih =>
    have ih2 : starLoop (globMatch T) cs = true ↔
        ∃ a b, cs = a ++ b ∧ globMatch T b = true := ih
    show (globMatch T (x :: cs) || starLoop (globMatch T) cs) = true ↔
      ∃ a b, x :: cs = a ++ b ∧ globMatch T b = true
    simp only [Bool.or_eq_true, ih2]
    constructor
    · rintro (h | ⟨a, b, hab, hb⟩)
      · exact ⟨[], x :: cs, rfl, h⟩
      · exact ⟨x :: a, b, by rw [hab]; rfl, hb⟩
    · rintro ⟨a, b, hab, hb⟩
      cases a with
      | nil =>
        left
        rw [show x :: cs = b from hab]
        exact hb
      | cons a0 arest =>
        right
        obtain ⟨h1, h2⟩ : x = a0 ∧ cs = arest ++ b := by simpa using hab
        exact ⟨arest, b, h2, hb⟩

/-- C8: a folder entry is selected by the scan's glob `*.[mp3 wav]*`
exactly when its name contains a dot followed by one character from the
class `{m, p, 3, space, w, a, v}` (followed by anything, possibly
nothing) — a character-class match, not an extension match. -/
theorem isMusicFile_iff (name : String) :
    isMusicFile name = true ↔
      ∃ a c b, name.data = a ++ '.' :: c :: b ∧ c ∈ music_extensions.data := by
  unfold isMusicFile musicPattern
  rw [globMatch_star_cons]
  constructor
  · rintro ⟨a, b, hab, hb⟩
    obtain ⟨c, b2, hb2, hc⟩ := (globMatch_tail _ _).mp hb
    exact ⟨a, c, b2, by rw [hab, hb2], hc⟩
  · rintro ⟨a, c, b2, hab, hc⟩
    exact ⟨a, '.' :: c :: b2, hab, (globMatch_tail _ _).mpr ⟨c, b2, rfl, hc⟩⟩

/-! ### The batch law (C1) -/

theorem slices_flatten (l : List String) :
    ((List.range ((l.length + 99) / 100)).map
        (fun i => (l.drop (i * 100)).take 100)).flatten = l := by
  by_cases h0 : l = []
  · subst h0
    rfl
  · have hlen : 0 < l.length := List.length_pos.mpr h0
    have hrec := slices_flatten (l.drop 100)
    have hn : (l.length + 99) / 100 = (l.length - 1) / 100 + 1 := by
      rw [show l.length + 99 = (l.length - 1) + 100 by omega]
      rw [Nat.add_div_right _ (by norm_num)]
    have hm : ((l.drop 100).length + 99) / 100 = (l.length - 1) / 100 := by
      rw [List.length_drop]
      rcases le_or_lt l.length 100 with hle | hlt
      · rw [show l.length - 100 = 0 by omega]
        rw [Nat.div_eq_of_lt (by norm_num), Nat.div_eq_of_lt (by omega)]
      · rw [show l.length - 100 + 99 = l.length - 1 by omega]
    rw [hn, List.range_succ_eq_map, List.map_cons, List.map_map, List.flatten_cons]
    have hshift : ((List.range ((l.length - 1) / 100)).map
          ((fun i => (l.drop (i * 100)).take 100) ∘ Nat.succ))
        = (List.range (((l.drop 100).length + 99) / 100)).map
            (fun i => ((l.drop 100).drop (i * 100)).take 100) := by
      rw [hm]
      refine List.map_congr_left ?_
      intro i _
      simp only [Function.comp_apply, List.drop_drop]
      rw [show 100 + i * 100 = Nat.succ i * 100 by omega]
    rw [hshift, hrec]
    simp
termination_by l.length
decreasing_by
  simp only [List.length_drop]
  omega

theorem addBatchLoop_dry (sp : Oracle) (pid : String) (tracks : List String) :
    ∀ r i, addBatchLoop sp pid tracks true i r = (true, []) := by
  intro r
  induction r with
  | zero => intro i; rfl
  | succ n ih =>
    intro i
    show addBatchLoop sp pid tracks true (i + 1) n = (true, [])
    exact ih (i + 1)

theorem addBatchLoop_false_succ (sp : Oracle) (pid : String)
    (tracks : List String) (i r : Nat) :
    addBatchLoop sp pid tracks false i (r + 1)
      = (match sp.addItems pid ((tracks.drop (i * 100)).take 100) with
         | none => ((false : Bool),
             [RemoteCall.addItems pid ((tracks.drop (i * 100)).take 100)])
         | some _ =>
           ((addBatchLoop sp pid tracks false (i + 1) r).1,
             RemoteCall.addItems pid ((tracks.drop (i * 100)).take 100)
               :: (addBatchLoop sp pid tracks false (i + 1) r).2)) := rfl

theorem addBatchLoop_ok_trace (sp : Oracle) (pid : String) (tracks : List String) :
    ∀ r i, (addBatchLoop sp pid tracks false i r).1 = true →
      (addBatchLoop sp pid tracks false i r).2
        = (List.range' i r).map
            (fun j => RemoteCall.addItems pid ((tracks.drop (j * 100)).take 100)) := by
  intro r
  induction r with
  | zero => intro i _; rfl
  | succ n ih =>
    intro i h
    rw [addBatchLoop_false_succ] at h ⊢
    cases hadd : sp.addItems pid ((tracks.drop (i * 100)).take 100) with
    | none =>
      rw [hadd] at h
      exact absurd (h : false = true) Bool.false_ne_true
    | some u =>
      rw [hadd] at h
      rw [List.range'_succ, List.map_cons]
      show RemoteCall.addItems pid ((tracks.drop (i * 100)).take 100)
          :: (addBatchLoop sp pid tracks false (i + 1) n).2
        = RemoteCall.addItems pid ((tracks.drop (i * 100)).take 100)
          :: (List.range' (i + 1) n).map
              (fun j => RemoteCall.addItems pid ((tracks.drop (j * 100)).take 100))
      exact congrArg _ (ih (i + 1) (h : (addBatchLoop sp pid tracks false (i + 1) n).1 = true))

/-- C1: on a run whose batch-adding phase completes, the publisher makes
exactly `ceil(L/100)` add-calls for a matched list of length `L`, every
call's batch has at most 100 items, and the batches concatenated in call
order are exactly the matched list. -/
theorem addBatches_batch_law (sp : Oracle) (pid : String) (tracks : List String)
    (h : (addBatches sp pid tracks false).1 = true) :
    (addBatches sp pid tracks false).2.length = (tracks.length + 99) / 100 ∧
    ((addBatches sp pid tracks false).2.all
        (fun c => decide ((batchOf c).length ≤ 100))) = true ∧
    ((addBatches sp pid tracks false).2.map batchOf).flatten = tracks := by
  have htr := addBatchLoop_ok_trace sp pid tracks ((tracks.length + 99) / 100) 0 h
  unfold addBatches at htr ⊢
  rw [htr]
  refine ⟨by simp [List.length_range'], ?_, ?_⟩
  · rw [List.all_eq_true]
    intro c hc
    obtain ⟨j, _, hj⟩ := List.mem_map.mp hc
    rw [← hj]
    simp only [batchOf, decide_eq_true_eq, List.length_take]
    omega
  · rw [List.map_map]
    rw [show batchOf ∘ (fun j => RemoteCall.addItems pid ((tracks.drop (j * 100)).take 100))
        = fun j => (tracks.drop (j * 100)).take 100 from rfl]
    rw [← List.range_eq_range']
    exact slices_flatten tracks

theorem addBatches_batch_law_witness :
    (addBatches oracleW "pl1" ["idA", "idB"] false).2.length
        = (((["idA", "idB"] : List String)).length + 99) / 100 ∧
    ((addBatches oracleW "pl1" ["idA", "idB"] false).2.all
        (fun c => decide ((batchOf c).length ≤ 100))) = true ∧
    ((addBatches oracleW "pl1" ["idA", "idB"] false).2.map batchOf).flatten
        = ["idA", "idB"] :=
  addBatches_batch_law oracleW "pl1" ["idA", "idB"] (by decide)

/-! ### Facts about the cache file names and the write/remove steps -/

theorem tracks_file_ne_unmatched_file (p : String) :
    playlist_tracks_file p ≠ playlist_unmatched_file p := by
  intro h
  have hlen := congrArg String.length h
  rw [playlist_tracks_file, playlist_unmatched_file, String.length_append,
    String.length_append,
    show ("-tracks_to_add.txt" : String).length = 18 from rfl,
    show ("-unmatched_tracks.txt" : String).length = 21 from rfl] at hlen
  omega

theorem cacheWrites_tf (fs : FS) (tf uf : String) (m u : List String)
    (hne : tf ≠ uf) :
    cacheWrites fs tf uf m u tf = some (write_list_to_file m) := by
  simp [cacheWrites, fsWrite, hne]

theorem cacheWrites_uf (fs : FS) (tf uf : String) (m u : List String) :
    cacheWrites fs tf uf m u uf = some (write_list_to_file u) := by
  simp [cacheWrites, fsWrite]

theorem cacheWrites_isSome (fs : FS) (tf uf : String) (m u : List String) :
    (cacheWrites fs tf uf m u tf).isSome = true ∧
    (cacheWrites fs tf uf m u uf).isSome = true := by
  unfold cacheWrites fsWrite
  constructor
  · by_cases h : tf = uf <;> simp [h]
  · simp

theorem fsRemove_both (fs : FS) (tf uf : String) :
    fsRemove (fsRemove fs tf) uf tf = none ∧ fsRemove (fsRemove fs tf) uf uf = none := by
  unfold fsRemove
  constructor
  · by_cases h : tf = uf <;> simp [h]
  · simp

/-! ### The non-mutating calls of the search phase -/

theorem buildLists_calls_no_mutation (sp : Oracle) (files : List String) :
    ((buildLists sp files).2).all (fun c => !isMutation c) = true := by
  induction files with
  | nil => rfl
  | cons f rest ih =>
    show ((match search_track sp (stripExt f) with
      | (Except.error e, calls) => ((Except.error e : Except Unit (List String × List String)), calls)
      | (Except.ok track_id, calls) =>
        match buildLists sp rest with
        | (Except.error e, restCalls) => (Except.error e, calls ++ restCalls)
        | (Except.ok (tracks_to_add, unmatched_tracks), restCalls) =>
          match track_id with
          | some id =>
              (Except.ok (id :: tracks_to_add, unmatched_tracks), calls ++ restCalls)
          | none =>
              (Except.ok (tracks_to_add, f :: unmatched_tracks), calls ++ restCalls)).2).all
        (fun c => !isMutation c) = true
    rw [show search_track sp (stripExt f)
        = ((search_track sp (stripExt f)).1, [RemoteCall.search (stripExt f) "track" 1]) from by
      rw [← search_track_snd sp (stripExt f)]]
    cases hst : (search_track sp (stripExt f)).1 with
    | error e => simp [isMutation]
    | ok track_id =>
      cases hbl : buildLists sp rest with
      | mk res2 calls2 =>
        rw [hbl] at ih
        cases res2 with
        | error e => simpa [isMutation] using ih
        | ok p =>
          cases p with
          | mk m u =>
            cases track_id <;> simpa [isMutation] using ih

theorem create_tracks_list_calls_no_mutation (sp : Oracle) (fs : FS)
    (files : List String) (tf uf : String) :
    ((create_tracks_list sp fs files tf uf).2).all (fun c => !isMutation c) = true := by
  unfold create_tracks_list
  by_cases h : ((fs tf).isSome && (fs uf).isSome) = true
  · simp [h]
  · simp only [Bool.not_eq_true] at h
    simp [h, buildLists_calls_no_mutation]

/-! ### Shapes of the branches of `main` -/

theorem main_currentUser_none (sp : Oracle) (fs0 : FS) (files : List String)
    (pname : String) (dry : Bool) (hcu : sp.currentUser = none) :
    main sp fs0 files pname dry = (false, fs0, [RemoteCall.currentUser]) := by
  unfold main
  rw [hcu]

theorem main_lists_error (sp : Oracle) (fs0 : FS) (files : List String)
    (pname : String) (dry : Bool) (user : String) (e : Unit)
    (calls : List RemoteCall) (hcu : sp.currentUser = some user)
    (hct : create_tracks_list sp fs0 files (playlist_tracks_file pname)
        (playlist_unmatched_file pname) = (Except.error e, calls)) :
    main sp fs0 files pname dry = (false, fs0, RemoteCall.currentUser :: calls) := by
  unfold main
  rw [hcu, hct]

theorem main_dry_shape (sp : Oracle) (fs0 : FS) (files : List String)
    (pname : String) (user : String) (m u : List String)
    (calls : List RemoteCall) (hcu : sp.currentUser = some user)
    (hct : create_tracks_list sp fs0 files (playlist_tracks_file pname)
        (playlist_unmatched_file pname) = (Except.ok (m, u), calls)) :
    main sp fs0 files pname true
      = (true,
          cacheWrites fs0 (playlist_tracks_file pname) (playlist_unmatched_file pname) m u,
          RemoteCall.currentUser :: calls) := by
  unfold main
  rw [hcu, hct]
  show (((addBatches sp "" m true).1 : Bool), _, RemoteCall.currentUser
      :: calls ++ (addBatches sp "" m true).2) = _
  rw [show addBatches sp "" m true = (true, []) from addBatchLoop_dry sp "" m _ 0]
  simp

theorem main_create_fail (sp : Oracle) (fs0 : FS) (files : List String)
    (pname : String) (user : String) (m u : List String)
    (calls : List RemoteCall) (hcu : sp.currentUser = some user)
    (hct : create_tracks_list sp fs0 files (playlist_tracks_file pname)
        (playlist_unmatched_file pname) = (Except.ok (m, u), calls))
    (hpc : sp.createPlaylist user pname = none) :
    main sp fs0 files pname false
      = (false,
          cacheWrites fs0 (playlist_tracks_file pname) (playlist_unmatched_file pname) m u,
          RemoteCall.currentUser :: calls
            ++ [RemoteCall.playlistCreate user pname]) := by
  unfold main
  rw [hcu, hct]
  show (match sp.createPlaylist user pname with
    | none => ((false : Bool),
        cacheWrites fs0 (playlist_tracks_file pname) (playlist_unmatched_file pname) m u,
        RemoteCall.currentUser :: calls ++ [RemoteCall.playlistCreate user pname])
    | some playlist_id =>
      if (addBatches sp playlist_id m false).1 then
        (true, fsRemove (fsRemove
            (cacheWrites fs0 (playlist_tracks_file pname) (playlist_unmatched_file pname) m u)
            (playlist_tracks_file pname)) (playlist_unmatched_file pname),
          RemoteCall.currentUser :: calls
            ++ RemoteCall.playlistCreate user pname :: (addBatches sp playlist_id m false).2)
      else
        (false,
          cacheWrites fs0 (playlist_tracks_file pname) (playlist_unmatched_file pname) m u,
          RemoteCall.currentUser :: calls
            ++ RemoteCall.playlistCreate user pname :: (addBatches sp playlist_id m false).2))
    = _
  rw [hpc]

theorem main_full_shape (sp : Oracle) (fs0 : FS) (files : List String)
    (pname : String) (user pid : String) (m u : List String)
    (calls : List RemoteCall) (hcu : sp.currentUser = some user)
    (hct : create_tracks_list sp fs0 files (playlist_tracks_file pname)
        (playlist_unmatched_file pname) = (Except.ok (m, u), calls))
    (hpc : sp.createPlaylist user pname = some pid) :
    main sp fs0 files pname false
      = (if (addBatches sp pid m false).1 then
          (true, fsRemove (fsRemove
              (cacheWrites fs0 (playlist_tracks_file pname) (playlist_unmatched_file pname) m u)
              (playlist_tracks_file pname)) (playlist_unmatched_file pname),
            RemoteCall.currentUser :: calls
              ++ RemoteCall.playlistCreate user pname :: (addBatches sp pid m false).2)
        else
          (false,
            cacheWrites fs0 (playlist_tracks_file pname) (playlist_unmatched_file pname) m u,
            RemoteCall.currentUser :: calls
              ++ RemoteCall.playlistCreate user pname :: (addBatches sp pid m false).2)) := by
  unfold main
  rw [hcu, hct]
  show (match sp.createPlaylist user pname with
    | none => ((false : Bool),
        cacheWrites fs0 (playlist_tracks_file pname) (playlist_unmatched_file pname) m u,
        RemoteCall.currentUser :: calls ++ [RemoteCall.playlistCreate user pname])
    | some playlist_id =>
      if (addBatches sp playlist_id m false).1 then
        (true, fsRemove (fsRemove
            (cacheWrites fs0 (playlist_tracks_file pname) (playlist_unmatched_file pname) m u)
            (playlist_tracks_file pname)) (playlist_unmatched_file pname),
          RemoteCall.currentUser :: calls
            ++ RemoteCall.playlistCreate user pname :: (addBatches sp playlist_id m false).2)
      else
        (false,
          cacheWrites fs0 (playlist_tracks_file pname) (playlist_unmatched_file pname) m u,
          RemoteCall.currentUser :: calls
            ++ RemoteCall.playlistCreate user pname :: (addBatches sp playlist_id m false).2))
    = _
  rw [hpc]

/-- C5: in a dry run, the trace contains no playlist-creation and no
track-addition call, no file is deleted (a cache file missing afterwards
was already missing before), and if the run completes both cache files
exist afterwards (the writes still happen). -/
theorem main_dry_run_guarantee (sp : Oracle) (fs0 : FS) (files : List String)
    (pname : String) :
    ((main sp fs0 files pname true).2.2.all (fun c => !isMutation c)) = true ∧
    ((main sp fs0 files pname true).2.1 (playlist_tracks_file pname) = none →
      fs0 (playlist_tracks_file pname) = none) ∧
    ((main sp fs0 files pname true).2.1 (playlist_unmatched_file pname) = none →
      fs0 (playlist_unmatched_file pname) = none) ∧
    ((main sp fs0 files pname true).1 = true →
      ((main sp fs0 files pname true).2.1 (playlist_tracks_file pname)).isSome = true ∧
      ((main sp fs0 files pname true).2.1 (playlist_unmatched_file pname)).isSome = true) := by
  cases hcu : sp.currentUser with
  | none =>
    rw [main_currentUser_none sp fs0 files pname true hcu]
    exact ⟨rfl, fun h => h, fun h => h, fun h => nomatch h⟩
  | some user =>
    cases hct : create_tracks_list sp fs0 files (playlist_tracks_file pname)
        (playlist_unmatched_file pname) with
    | mk res calls =>
      have hnm : calls.all (fun c => !isMutation c) = true := by
        have h := create_tracks_list_calls_no_mutation sp fs0 files
          (playlist_tracks_file pname) (playlist_unmatched_file pname)
        rw [hct] at h
        exact h
      have hnmc : (RemoteCall.currentUser :: calls).all (fun c => !isMutation c) = true := by
        rw [List.all_cons, Bool.and_eq_true]
        exact ⟨rfl, hnm⟩
      cases res with
      | error e =>
        rw [main_lists_error sp fs0 files pname true user e calls hcu hct]
        exact ⟨hnmc, fun h => h, fun h => h, fun h => nomatch h⟩
      | ok p =>
        obtain ⟨m, u⟩ := p
        rw [main_dry_shape sp fs0 files pname user m u calls hcu hct]
        obtain ⟨hsome1, hsome2⟩ := cacheWrites_isSome fs0 (playlist_tracks_file pname)
          (playlist_unmatched_file pname) m u
        refine ⟨hnmc, ?_, ?_, fun _ => ⟨hsome1, hsome2⟩⟩
        · intro h
          have h2 : cacheWrites fs0 (playlist_tracks_file pname)
              (playlist_unmatched_file pname) m u (playlist_tracks_file pname) = none := h
          rw [h2] at hsome1
          simp at hsome1
        · intro h
          have h2 : cacheWrites fs0 (playlist_tracks_file pname)
              (playlist_unmatched_file pname) m u (playlist_unmatched_file pname) = none := h
          rw [h2] at hsome2
          simp at hsome2

theorem main_dry_run_guarantee_witness :
    ((main oracleW emptyFS filesW "p" true).2.2.all (fun c => !isMutation c)) = true ∧
    ((main oracleW emptyFS filesW "p" true).2.1 (playlist_tracks_file "p")).isSome = true ∧
    ((main oracleW emptyFS filesW "p" true).2.1 (playlist_unmatched_file "p")).isSome = true :=
  ⟨(main_dry_run_guarantee oracleW emptyFS filesW "p").1,
   ((main_dry_run_guarantee oracleW emptyFS filesW "p").2.2.2 (by decide)).1,
   ((main_dry_run_guarantee oracleW emptyFS filesW "p").2.2.2 (by decide)).2⟩

/-- C6: both cache files end up deleted exactly on a run that completes
successfully and is not a dry run; on a failed or dry run each cache
file either exists afterwards (it was written before the failure point)
or is exactly what it was before the run (never a deletion). -/
theorem main_cleanup_iff (sp : Oracle) (fs0 : FS) (files : List String)
    (pname : String) (dry : Bool) :
    ((main sp fs0 files pname dry).1 = true ∧ dry = false →
      (main sp fs0 files pname dry).2.1 (playlist_tracks_file pname) = none ∧
      (main sp fs0 files pname dry).2.1 (playlist_unmatched_file pname) = none) ∧
    ((main sp fs0 files pname dry).1 = false ∨ dry = true →
      (((main sp fs0 files pname dry).2.1 (playlist_tracks_file pname)).isSome = true ∨
        (main sp fs0 files pname dry).2.1 (playlist_tracks_file pname)
          = fs0 (playlist_tracks_file pname)) ∧
      (((main sp fs0 files pname dry).2.1 (playlist_unmatched_file pname)).isSome = true ∨
        (main sp fs0 files pname dry).2.1 (playlist_unmatched_file pname)
          = fs0 (playlist_unmatched_file pname))) := by
  cases dry with
  | true =>
    refine ⟨fun h => (nomatch h.2), ?_⟩
    cases hcu : sp.currentUser with
    | none =>
      rw [main_currentUser_none sp fs0 files pname true hcu]
      exact fun _ => ⟨Or.inr rfl, Or.inr rfl⟩
    | some user =>
      cases hct : create_tracks_list sp fs0 files (playlist_tracks_file pname)
          (playlist_unmatched_file pname) with
      | mk res calls =>
        cases res with
        | error e =>
          rw [main_lists_error sp fs0 files pname true user e calls hcu hct]
          exact fun _ => ⟨Or.inr rfl, Or.inr rfl⟩
        | ok p =>
          obtain ⟨m, u⟩ := p
          rw [main_dry_shape sp fs0 files pname user m u calls hcu hct]
          obtain ⟨hsome1, hsome2⟩ := cacheWrites_isSome fs0 (playlist_tracks_file pname)
            (playlist_unmatched_file pname) m u
          exact fun _ => ⟨Or.inl hsome1, Or.inl hsome2⟩
  | false =>
    cases hcu : sp.currentUser with
    | none =>
      rw [main_currentUser_none sp fs0 files pname false hcu]
      exact ⟨fun h => (nomatch h.1), fun _ => ⟨Or.inr rfl, Or.inr rfl⟩⟩
    | some user =>
      cases hct : create_tracks_list sp fs0 files (playlist_tracks_file pname)
          (playlist_unmatched_file pname) with
      | mk res calls =>
        cases res with
        | error e =>
          rw [main_lists_error sp fs0 files pname false user e calls hcu hct]
          exact ⟨fun h => (nomatch h.1), fun _ => ⟨Or.inr rfl, Or.inr rfl⟩⟩
        | ok p =>
          obtain ⟨m, u⟩ := p
          obtain ⟨hsome1, hsome2⟩ := cacheWrites_isSome fs0 (playlist_tracks_file pname)
            (playlist_unmatched_file pname) m u
          cases hpc : sp.createPlaylist user pname with
          | none =>
            rw [main_create_fail sp fs0 files pname user m u calls hcu hct hpc]
            exact ⟨fun h => (nomatch h.1), fun _ => ⟨Or.inl hsome1, Or.inl hsome2⟩⟩
          | some pid =>
            rw [main_full_shape sp fs0 files pname user pid m u calls hcu hct hpc]
            cases hab : (addBatches sp pid m false).1 with
            | true =>
              rw [if_pos rfl]
              obtain ⟨hr1, hr2⟩ := fsRemove_both
                (cacheWrites fs0 (playlist_tracks_file pname)
                  (playlist_unmatched_file pname) m u)
                (playlist_tracks_file pname) (playlist_unmatched_file pname)
              refine ⟨fun _ => ⟨hr1, hr2⟩, ?_⟩
              rintro (h | h) <;> exact nomatch h
            | false =>
              rw [if_neg (by exact Bool.false_ne_true)]
              exact ⟨fun h => (nomatch h.1), fun _ => ⟨Or.inl hsome1, Or.inl hsome2⟩⟩

theorem main_cleanup_iff_witness :
    (main oracleW emptyFS filesW "p" false).2.1 (playlist_tracks_file "p") = none ∧
    (main oracleW emptyFS filesW "p" false).2.1 (playlist_unmatched_file "p") = none :=
  (main_cleanup_iff oracleW emptyFS filesW "p" false).1 ⟨by decide, rfl⟩

/-- C10: when exactly one of the two cache files exists, the resumption
path is not taken — the builder performs the full scan/search — and the
run then overwrites both cache files with the freshly computed lists
(observed here on a dry run, whose files survive to the end), discarding
the lone pre-existing file's content. -/
theorem lone_cache_ignored (sp : Oracle) (fs0 : FS) (files : List String)
    (pname user : String) (m u : List String) (tr : List RemoteCall)
    (hxor : (((fs0 (playlist_tracks_file pname)).isSome : Bool)
        ^^ (fs0 (playlist_unmatched_file pname)).isSome) = true)
    (hcu : sp.currentUser = some user)
    (hbl : buildLists sp (files.filter (fun f => isMusicFile f))
        = (Except.ok (m, u), tr)) :
    create_tracks_list sp fs0 files (playlist_tracks_file pname)
        (playlist_unmatched_file pname)
      = buildLists sp (files.filter (fun f => isMusicFile f)) ∧
    (main sp fs0 files pname true).2.1 (playlist_tracks_file pname)
      = some (write_list_to_file m) ∧
    (main sp fs0 files pname true).2.1 (playlist_unmatched_file pname)
      = some (write_list_to_file u) := by
  have hfresh : ((fs0 (playlist_tracks_file pname)).isSome
      && (fs0 (playlist_unmatched_file pname)).isSome) = false := by
    revert hxor
    generalize (fs0 (playlist_tracks_file pname)).isSome = a
    generalize (fs0 (playlist_unmatched_file pname)).isSome = b
    cases a <;> cases b <;> decide
  have h1 : create_tracks_list sp fs0 files (playlist_tracks_file pname)
      (playlist_unmatched_file pname)
      = buildLists sp (files.filter (fun f => isMusicFile f)) := by
    simp only [create_tracks_list, hfresh, Bool.false_eq_true, if_false]
  refine ⟨h1, ?_, ?_⟩
  · rw [main_dry_shape sp fs0 files pname user m u tr hcu (h1.trans hbl)]
    exact cacheWrites_tf fs0 _ _ m u (tracks_file_ne_unmatched_file pname)
  · rw [main_dry_shape sp fs0 files pname user m u tr hcu (h1.trans hbl)]
    exact cacheWrites_uf fs0 _ _ m u

theorem lone_cache_ignored_witness :
    create_tracks_list oracleW fsLoneW filesW (playlist_tracks_file "p")
        (playlist_unmatched_file "p")
      = buildLists oracleW (filesW.filter (fun f => isMusicFile f)) ∧
    (main oracleW fsLoneW filesW "p" true).2.1 (playlist_tracks_file "p")
      = some (write_list_to_file ["idA", "idB"]) ∧
    (main oracleW fsLoneW filesW "p" true).2.1 (playlist_unmatched_file "p")
      = some (write_list_to_file ["Unknown Noise.mp3"]) :=
  lone_cache_ignored oracleW fsLoneW filesW "p" "user1" ["idA", "idB"]
    ["Unknown Noise.mp3"]
    [RemoteCall.search "Song A" "track" 1, RemoteCall.search "Song B" "track" 1,
      RemoteCall.search "Unknown Noise" "track" 1]
    (by decide) rfl rfl

end Mp3
